import Mathlib

/-!
Shallow embedding of the trellis ingress data plane
(`src/ingress/internal/ingestion/handler.go`, the routing engine in the same
package, and the auth middleware in `src/ingress/cmd/api/main.go`).

Go strings are modelled as lists of characters (`GoStr`), Go's
`map[string][]string` (`url.Values` / query parameters) as association lists
with unique keys whose traversal order captures one possible (unspecified) Go
map iteration order, and the campaign snapshot `map[string]*Campaign` likewise
as an association list keyed by `"orgID/campaignID"`.
-/

abbrev GoStr := List Char

/-- Build a `GoStr` from a string literal. -/
def gs (s : String) : GoStr := s.data

/-- Model of `strings.ToLower` (ASCII-adequate model via `Char.toLower`). -/
def goToLower (s : GoStr) : GoStr := s.map Char.toLower

/-- Model of `strings.Contains(s, sub)`: `sub` occurs as a contiguous substring of `s`. -/
def goContainsIn : GoStr → GoStr → Bool
  | [], sub => sub.isPrefixOf []
  | c :: t, sub => sub.isPrefixOf (c :: t) || goContainsIn t sub

/-- Go `map[string][]string` (e.g. `url.Values`, `r.URL.Query()`): association
list with unique keys; list order stands for the map's iteration order. -/
abbrev GoValues := List (GoStr × List GoStr)

/-- Map lookup on `GoValues` (first matching key). -/
def valuesGet (v : GoValues) (k : GoStr) : Option (List GoStr) :=
  match v with
  | [] => none
  | (k', vs) :: t => if k' = k then some vs else valuesGet t k

/-- Model of `url.Values.Add(key, value)`: append `value` to the slice stored at `key`,
creating the entry if absent. -/
def valuesAdd (v : GoValues) (k : GoStr) (val : GoStr) : GoValues :=
  match v with
  | [] => [(k, [val])]
  | (k', vs) :: t => if k' = k then (k', vs ++ [val]) :: t else (k', vs) :: valuesAdd t k val

/-- Model of `Rule` from the routing engine: field, operator, values, priority (Go `int`). -/
structure Rule where
  field : GoStr
  operator : GoStr
  values : List GoStr
  priority : Int
deriving DecidableEq, Repr

/-- A parsed destination URL as seen through `net/url`: the non-query part is
kept opaque in `base`, the query is a `GoValues`; `parseOk = false` models a
destination string that `url.Parse` rejects. -/
structure GoURL where
  base : GoStr
  query : GoValues
  parseOk : Bool := true
deriving DecidableEq, Repr

/-- Model of `Campaign` from the routing engine (timestamps omitted: never read on the
routing path). -/
structure Campaign where
  organizationID : GoStr
  campaignID : GoStr
  name : GoStr
  status : GoStr
  rules : List Rule
  destinationURL : GoURL
  appendParams : Bool
deriving DecidableEq, Repr

/-- The routing engine's `campaigns` map: key `"orgID/campaignID"` → campaign. -/
abbrev Snapshot := List (GoStr × Campaign)

/-- Model of `getCampaign`: map lookup in the snapshot. -/
def getCampaign (snap : Snapshot) (key : GoStr) : Option Campaign :=
  match snap with
  | [] => none
  | (k, c) :: t => if k = key then some c else getCampaign t key

/-- Lines 484–489 of `findBestMatch`: flatten the multi-valued parameter map to
single values (first value per key). -/
def flattenParams (params : GoValues) : List (GoStr × GoStr) :=
  params.filterMap (fun kv => match kv.2 with
    | [] => none
    | v :: _ => some (kv.1, v))

/-- Lookup in the flattened parameter map (`params[rule.Field]`). -/
def flatGet (flat : List (GoStr × GoStr)) (k : GoStr) : Option GoStr :=
  match flat with
  | [] => none
  | (k', v) :: t => if k' = k then some v else flatGet t k

/-- Model of `ruleMatches`: switch on the operator; unknown operators never match. -/
def ruleMatches (rule : Rule) (flat : List (GoStr × GoStr)) : Bool :=
  match flatGet flat rule.field with
  | none => false
  | some paramValue =>
    if rule.operator = gs ("equals") then
      rule.values.any (fun value => paramValue = value)
    else if rule.operator = gs ("contains") then
      rule.values.any (fun value => goContainsIn (goToLower paramValue) (goToLower value))
    else if rule.operator = gs ("in") then
      rule.values.any (fun value => paramValue = value)
    else if rule.operator = gs ("prefix") then
      rule.values.any (fun value => value.isPrefixOf paramValue)
    else
      false

/-- Model of `calculateMatchScore`: sum of priorities of matching rules. -/
def calculateMatchScore (c : Campaign) (flat : List (GoStr × GoStr)) : Int :=
  c.rules.foldl (fun score rule =>
    if ruleMatches rule flat then score + rule.priority else score) 0

/-- The loop body of `findBestMatch` over the snapshot entries, carrying
`bestMatch` and `bestScore` exactly as the Go loop does. -/
def findBestAux (orgID : GoStr) (flat : List (GoStr × GoStr)) :
    Snapshot → Option Campaign → Int → Option Campaign × Int
  | [], best, bestScore => (best, bestScore)
  | (key, c) :: rest, best, bestScore =>
    if (orgID ++ ['/']).isPrefixOf key = false then
      findBestAux orgID flat rest best bestScore
    else if c.status ≠ gs ("active") then
      findBestAux orgID flat rest best bestScore
    else
      let score := calculateMatchScore c flat
      if bestScore < score then
        findBestAux orgID flat rest (some c) score
      else
        findBestAux orgID flat rest best bestScore

/-- Model of `findBestMatch`: scan the snapshot for this organization's active campaign
with the highest positive score (`score > bestScore` with `bestScore`
initialised to 0). -/
def findBestMatch (snap : Snapshot) (organizationID : GoStr) (params : GoValues) :
    Option Campaign :=
  (findBestAux organizationID (flattenParams params) snap none 0).1

/-- Lines 578–583 of `buildDestinationURL`: `query.Add(key, value)` for every
inbound key and value. -/
def addAllParams (query : GoValues) (params : GoValues) : GoValues :=
  params.foldl (fun q kv => kv.2.foldl (fun q' v => valuesAdd q' kv.1 v) q) query

/-- Model of `buildDestinationURL`: return the destination unchanged unless
`append_params` is set and parameters exist; on parse failure return the
destination unchanged; otherwise merge the inbound parameters into the query. -/
def buildDestinationURL (c : Campaign) (params : GoValues) : GoURL :=
  if !c.appendParams || params = [] then c.destinationURL
  else if !c.destinationURL.parseOk then c.destinationURL
  else { c.destinationURL with query := addAllParams c.destinationURL.query params }

/-- The hardcoded ultimate fallback `"https://example.com/"` of `GetDestination`. -/
def ultimateFallback : GoURL := { base := gs ("https://example.com/"), query := [] }

/-- The part of `GetDestination` after the explicit-campaign check: best rule
match, else the organization's `"default"` campaign (the Go code performs no
status check on the default). -/
def selectByRulesOrDefault (snap : Snapshot) (organizationID : GoStr)
    (params : GoValues) : Option Campaign :=
  match findBestMatch snap organizationID params with
  | some c => some c
  | none => getCampaign snap (organizationID ++ gs ("/default"))

/-- The campaign-selection core of `GetDestination`: explicit active campaign
(key `orgID ++ "/" ++ campaignID`), else best rule match, else the `"default"`
campaign, else none (ultimate fallback). -/
def getDestinationSelected (snap : Snapshot) (organizationID campaignID : GoStr)
    (params : GoValues) : Option Campaign :=
  match (if campaignID ≠ [] then getCampaign snap (organizationID ++ '/' :: campaignID) else none) with
  | some c =>
    if c.status = gs ("active") then some c
    else selectByRulesOrDefault snap organizationID params
  | none => selectByRulesOrDefault snap organizationID params

/-- Model of `GetDestination`: destination URL for the selected campaign, or the
hardcoded ultimate fallback when nothing was selected. -/
def GetDestination (snap : Snapshot) (organizationID campaignID : GoStr)
    (params : GoValues) : GoURL :=
  match getDestinationSelected snap organizationID campaignID params with
  | some c => buildDestinationURL c params
  | none => ultimateFallback

/-- Model of `OrganizationContext` from the auth package. -/
structure OrganizationContext where
  organizationID : GoStr
  organizationSlug : GoStr
  accountID : GoStr
  role : GoStr
  permissions : List GoStr
deriving DecidableEq, Repr

/-- The fields of `Event` the routing and dedup path reads and writes
(`event_id`/timestamp are fresh-random and wall-clock; the captured raw
request is carried opaquely and not consulted by the logic modelled here). -/
structure Event where
  organizationID : GoStr
  clickID : GoStr
  campaignID : GoStr
  fraudFlags : List GoStr
deriving DecidableEq, Repr

/-- Model of `isDuplicate`: empty click id or a Redis error degrade to `false`;
otherwise `SetNX` on the organization-scoped key `"click:org:click"` — the key
set is modelled as the list of keys present, returned updated. -/
def isDuplicate (store : List GoStr) (redisErr : Bool)
    (organizationID clickID : GoStr) : Bool × List GoStr :=
  if clickID = [] then (false, store)
  else
    let key := gs ("click:") ++ organizationID ++ ':' :: clickID
    if redisErr then (false, store)
    else if key ∈ store then (true, store)
    else (false, key :: store)

/-- One observable action of a handler, in program order.  `publishSubmit e`
records the hand-off of the event to the async publish goroutine with the
event's value at the `go` statement (the goroutine serializes the pointed-to
event concurrently with the rest of the handler). -/
inductive Step where
  | publishSubmit (e : Event)
  | dedupCheck (duplicate : Bool)
  | flagAppend
  | redirect (url : GoURL)
deriving DecidableEq, Repr

/-- What `HandleTraffic` produces for one request. -/
structure TrafficOutcome where
  status : Nat
  destination : Option GoURL
  trace : List Step
  finalEvent : Option Event
  store : List GoStr
deriving DecidableEq, Repr

/-- Model of `HandleTraffic`, in the order of the Go function body: organization
context check (500 on absence), event construction with the campaign id from
the path prefixed by the organization id, async publish hand-off, dedup check
with `duplicate_click` flag append, routing, 302 redirect. -/
def handleTraffic (octx : Option OrganizationContext) (pathCampaignID clickID : GoStr)
    (params : GoValues) (snap : Snapshot) (store : List GoStr) (redisErr : Bool) :
    TrafficOutcome :=
  match octx with
  | none => { status := 500, destination := none, trace := [], finalEvent := none, store }
  | some o =>
    let event0 : Event :=
      { organizationID := o.organizationID
        clickID := clickID
        campaignID := if pathCampaignID ≠ [] then o.organizationID ++ '/' :: pathCampaignID else []
        fraudFlags := [] }
    let dup := (isDuplicate store redisErr event0.organizationID event0.clickID).1
    let store1 := (isDuplicate store redisErr event0.organizationID event0.clickID).2
    let event1 :=
      if dup then { event0 with fraudFlags := event0.fraudFlags ++ [gs ("duplicate_click")] }
      else event0
    let destination := GetDestination snap event0.organizationID event0.campaignID params
    { status := 302
      destination := some destination
      trace := [Step.publishSubmit event0, Step.dedupCheck dup]
        ++ (if dup then [Step.flagAppend] else []) ++ [Step.redirect destination]
      finalEvent := some event1
      store := store1 }

/-- What `HandlePixel` / `HandlePostback` produce. -/
structure SimpleOutcome where
  status : Nat
  publishedEvent : Option Event
deriving DecidableEq, Repr

/-- Model of `HandlePixel`: serves the pixel with 200 even when the organization
context is absent (the code is deliberately lenient there); publishes an event
only when a context exists. -/
def handlePixel (octx : Option OrganizationContext) (clickID : GoStr) : SimpleOutcome :=
  match octx with
  | none => { status := 200, publishedEvent := none }
  | some o =>
    { status := 200
      publishedEvent := some
        { organizationID := o.organizationID, clickID, campaignID := [], fraudFlags := [] } }

/-- Model of `HandlePostback`: 401 without an organization context, 400 without a
`click_id` query parameter, else publish and 200. -/
def handlePostback (octx : Option OrganizationContext) (clickID : GoStr) : SimpleOutcome :=
  match octx with
  | none => { status := 401, publishedEvent := none }
  | some o =>
    if clickID = [] then { status := 400, publishedEvent := none }
    else
      { status := 200
        publishedEvent := some
          { organizationID := o.organizationID, clickID, campaignID := [], fraudFlags := [] } }

/-- Model of `readBody`: a nil body or a read error yields nil (the handler proceeds);
otherwise the whole body is kept (bytes as `Nat` values). -/
def readBody (body : Option (List Nat)) (readErr : Bool) : Option (List Nat) :=
  match body with
  | none => none
  | some b => if readErr then none else some b

/-- Outcome of the async publish goroutine (`publishEvent` and the inline
goroutine in `HandleTraffic`): marshal, publish, and on any failure log and
return — the event is gone. -/
inductive PublishOutcome where
  | published
  | droppedMarshal
  | droppedPublish
deriving DecidableEq, Repr

/-- Model of `publishEvent`'s control flow as a function of whether the JSON marshal
and the Pub/Sub publish succeed. -/
def publishEvent (marshalOk publishOk : Bool) : PublishOutcome :=
  if !marshalOk then PublishOutcome.droppedMarshal
  else if publishOk then PublishOutcome.published
  else PublishOutcome.droppedPublish

/-- Whether a durable record of the event exists after the publish attempt:
the implementation has no DLQ and no permanent-failure sink, so only a
successful publish is durable. -/
def durableRecord : PublishOutcome → Bool
  | PublishOutcome.published => true
  | _ => false

/-- A Warden organization with its membership, as consumed by
`validateAPIKey` (`org.Organization.Id`, `.Slug`, `org.Membership`). -/
structure WardenOrg where
  id : GoStr
  slug : GoStr
  role : GoStr
  permissions : List GoStr
deriving DecidableEq, Repr

/-- Model of `validateAPIKey`: the two Warden RPC results are inputs (account id or
error; organization list or error).  Returns the Go pair
`(*OrganizationContext, error)`.  When the organization list is empty the Go
code executes `return nil, err` with `err` already nil — both components nil. -/
def validateAPIKey (authResp : Except GoStr GoStr)
    (orgsResp : Except GoStr (List WardenOrg)) :
    Option OrganizationContext × Option GoStr :=
  match authResp with
  | Except.error e => (none, some e)
  | Except.ok accountID =>
    match orgsResp with
    | Except.error e => (none, some e)
    | Except.ok orgs =>
      match orgs with
      | [] => (none, none)
      | org :: _ =>
        (some { organizationID := org.id
                organizationSlug := org.slug
                accountID := accountID
                role := org.role
                permissions := org.permissions }, none)

/-- What the authentication middleware does with a request. -/
inductive MiddlewareResult where
  | unauthorized
  | forward (octx : Option OrganizationContext)
deriving DecidableEq, Repr

/-- Model of `AuthenticationMiddleware` after the header-format checks: validate the
key, 401 on a non-nil error, otherwise install whatever context
`validateAPIKey` returned (possibly nil) and forward. -/
def authMiddlewareDispatch (validated : Option OrganizationContext × Option GoStr) :
    MiddlewareResult :=
  match validated.2 with
  | some _ => MiddlewareResult.unauthorized
  | none => MiddlewareResult.forward validated.1

/-- The header checks of `AuthenticationMiddleware`: missing header, missing
`"Bearer "` prefix, or missing `"wdn_"` key prefix short-circuit to 401. -/
def authMiddleware (authHeader : Option GoStr)
    (validate : GoStr → Option OrganizationContext × Option GoStr) :
    MiddlewareResult :=
  match authHeader with
  | none => MiddlewareResult.unauthorized
  | some h =>
    if (gs ("Bearer ")).isPrefixOf h = false then MiddlewareResult.unauthorized
    else
      let apiKey := h.drop (gs ("Bearer ")).length
      if (gs ("wdn_")).isPrefixOf apiKey = false then MiddlewareResult.unauthorized
      else authMiddlewareDispatch (validate apiKey)

/-- Scenario S1 fixture: tenant `org_A`, campaign `summer`, active, destination
`https://shop.example.com/s`, `append_params = true`, no rules. -/
def summerCampaign : Campaign :=
  { organizationID := gs ("org_A")
    campaignID := gs ("summer")
    name := gs ("Summer")
    status := gs ("active")
    rules := []
    destinationURL := { base := gs ("https://shop.example.com/s"), query := [] }
    appendParams := true }

/-- Snapshot as `loadCampaigns` builds it for scenario S1: key
`"org_A/summer"`. -/
def snapS1 : Snapshot := [(gs ("org_A/summer"), summerCampaign)]

/-- Inbound query of scenario S1: `click_id=abc&src=fb`. -/
def paramsS1 : GoValues := [(gs ("click_id"), [gs ("abc")]), (gs ("src"), [gs ("fb")])]

/-- An authenticated organization context for tenant `org_A`. -/
def orgACtx : OrganizationContext :=
  { organizationID := gs ("org_A")
    organizationSlug := gs ("org-a")
    accountID := gs ("acct_1")
    role := gs ("admin")
    permissions := [] }

/-- Rule used by the tie and isolation fixtures: `src equals fb`, priority 5. -/
def ruleSrcFb : Rule :=
  { field := gs ("src"), operator := gs ("equals"), values := [gs ("fb")], priority := 5 }

/-- Tie fixture: campaign `a` of tenant `o`. -/
def campTieA : Campaign :=
  { organizationID := gs ("o")
    campaignID := gs ("a")
    name := gs ("A")
    status := gs ("active")
    rules := [ruleSrcFb]
    destinationURL := { base := gs ("https://a.example/"), query := [] }
    appendParams := false }

/-- Tie fixture: campaign `b` of tenant `o`, same single rule as `campTieA`. -/
def campTieB : Campaign :=
  { campTieA with
      campaignID := gs ("b"),
      name := gs ("B"),
      destinationURL := { base := gs ("https://b.example/"), query := [] } }

/-- A snapshot holding both tied campaigns, iterated with `b` first (Go map
iteration order is unspecified, so this order is a possible execution). -/
def snapTie : Snapshot := [(gs ("o/b"), campTieB), (gs ("o/a"), campTieA)]

/-- Query under which both tied campaigns score 5. -/
def paramsTie : GoValues := [(gs ("src"), [gs ("fb")])]

/-- Isolation fixture: a campaign of the organization whose id is the
slash-containing string `o/x`, stored under its `loadCampaigns` key
`"o/x" ++ "/" ++ "c" = "o/x/c"`. -/
def campSlashOrg : Campaign :=
  { organizationID := gs ("o/x")
    campaignID := gs ("c")
    name := gs ("X")
    status := gs ("active")
    rules := [ruleSrcFb]
    destinationURL := { base := gs ("https://x.example/"), query := [] }
    appendParams := false }

/-- Snapshot containing only the `o/x` tenant's campaign. -/
def snapSlashOrg : Snapshot := [(gs ("o/x/c"), campSlashOrg)]

/-- Merge fixture for the destination-URL query: destination already carries
`a=1`, `append_params` set. -/
def campMerge : Campaign :=
  { organizationID := gs ("org_A")
    campaignID := gs ("m")
    name := gs ("M")
    status := gs ("active")
    rules := []
    destinationURL := { base := gs ("https://shop.example.com/s"), query := [(gs ("a"), [gs ("1")])] }
    appendParams := true }

/-- The event value `HandleTraffic` hands to the publish goroutine for the S3
duplicate-click requests (`/in?click_id=dup1`, no path campaign). -/
def dupEvent0 : Event :=
  { organizationID := gs ("org_A"), clickID := gs ("dup1"), campaignID := [], fraudFlags := [] }

/-- First S3 request: `/in?click_id=dup1` for `org_A` against an empty dedup
store. -/
def dupFirst : TrafficOutcome :=
  handleTraffic (some orgACtx) [] (gs ("dup1")) paramsS1 snapS1 [] false

/-- Second identical S3 request, against the dedup store the first one left. -/
def dupSecond : TrafficOutcome :=
  handleTraffic (some orgACtx) [] (gs ("dup1")) paramsS1 snapS1 dupFirst.store false

/-- Well-formedness of a snapshot as `loadCampaigns` constructs it: every
entry's key is the stored campaign's organization id and campaign id joined by
a slash. -/
def WFSnapshot (snap : Snapshot) : Prop :=
  ∀ kc ∈ snap, kc.1 = kc.2.organizationID ++ '/' :: kc.2.campaignID

/-- C1 (code bug): in scenario S1 — tenant `org_A`, active campaign `summer`
requested via `/in/summer?click_id=abc&src=fb` — the handler prefixes the path
campaign id with the organization id and `GetDestination` prefixes it again,
so the lookup key becomes `"org_A/org_A/summer"`, misses the snapshot, and the
response is a 302 to the hardcoded fallback instead of the campaign's
destination.  Passing the bare id (as the spec intends) would have produced
the expected destination with the inbound parameters appended. -/
theorem c1_direct_campaign_double_prefix :
    (handleTraffic (some orgACtx) (gs ("summer")) (gs ("abc")) paramsS1 snapS1 [] false).destination
        = some ultimateFallback
      ∧ getDestinationSelected snapS1 (gs ("org_A")) (gs ("org_A/summer")) paramsS1 = none
      ∧ ultimateFallback ≠ buildDestinationURL summerCampaign paramsS1
      ∧ GetDestination snapS1 (gs ("org_A")) (gs ("summer")) paramsS1
          = buildDestinationURL summerCampaign paramsS1
      ∧ (buildDestinationURL summerCampaign paramsS1).query
          = [(gs ("click_id"), [gs ("abc")]), (gs ("src"), [gs ("fb")])] := by
  decide

/-- C2 (code bug): an event whose Pub/Sub publish fails is logged and
discarded — the implementation has no DLQ and no permanent-failure sink, so a
302/200 response can be produced with zero durable record of the event. -/
theorem c2_publish_failure_drops_event :
    publishEvent true false = PublishOutcome.droppedPublish
      ∧ durableRecord (publishEvent true false) = false
      ∧ durableRecord (publishEvent false true) = false := by
  decide

/-- C3 counterexample: with an empty snapshot (no active campaign scores
positively, no `"default"` campaign, and no tenant-configured fallback exists
anywhere in the code), `GetDestination` still produces a URL — the hardcoded
`https://example.com/` — and the `/in` request is answered 302, not 404. -/
theorem c3_no_destination_counterexample :
    getDestinationSelected [] (gs ("org_A")) [] [] = none
      ∧ GetDestination [] (gs ("org_A")) [] [] = ultimateFallback
      ∧ (handleTraffic (some orgACtx) [] (gs ("x")) [] [] [] false).status = 302
      ∧ (handleTraffic (some orgACtx) [] (gs ("x")) [] [] [] false).destination
          = some ultimateFallback
      ∧ (302 : Nat) ≠ 404 := by
  decide

/-- C4 (code bug): for the second of two identical `/in?click_id=dup1`
requests, the handler hands the event to the async publish goroutine before
the dedup check runs: in the trace the submission precedes the dedup check and
the flag append, and the event value at submission carries no
`duplicate_click` flag (only the in-memory event mutated afterwards does,
racing with the goroutine's serialization).  Both requests do get a 302 to the
same destination. -/
theorem c4_publish_precedes_dedup :
    dupFirst.status = 302 ∧ dupSecond.status = 302
      ∧ dupFirst.destination = dupSecond.destination
      ∧ dupSecond.trace
          = [Step.publishSubmit dupEvent0, Step.dedupCheck true, Step.flagAppend,
             Step.redirect ultimateFallback]
      ∧ dupEvent0.fraudFlags = []
      ∧ dupSecond.finalEvent
          = some { dupEvent0 with fraudFlags := [gs ("duplicate_click")] } := by
  decide

/-- C7 counterexample: a `/in` request whose context carries no
`TenantContext` is answered 500 (`http.StatusInternalServerError`), not the
401 the claim states. -/
theorem c7_missing_context_counterexample :
    (handleTraffic none (gs ("summer")) (gs ("c")) [] [] [] false).status = 500
      ∧ (500 : Nat) ≠ 401
      ∧ handlePixel none (gs ("c")) = { status := 200, publishedEvent := none } := by
  decide

/-- C7 amended: without a tenant context, `/in` and `/in/{campaign_id}` reply
500 and return (no event, no redirect), `/postback` replies 401, and `/pixel`
leniently serves the pixel with 200 and publishes nothing; no handler
synthesizes a default tenant. -/
theorem c7_missing_context_amended (pathCID clickID : GoStr) (params : GoValues)
    (snap : Snapshot) (store : List GoStr) (redisErr : Bool) :
    handleTraffic none pathCID clickID params snap store redisErr
        = { status := 500, destination := none, trace := [], finalEvent := none, store := store }
      ∧ handlePostback none clickID = { status := 401, publishedEvent := none }
      ∧ handlePixel none clickID = { status := 200, publishedEvent := none } :=
  ⟨rfl, rfl, rfl⟩

/-- C8 counterexample: `readBody` keeps a five-byte body whole — there is no
byte cap in the code, so for a configured cap of four bytes (or any cap below
the body length) the claim "at most N bytes are copied" fails. -/
theorem c8_no_body_cap_counterexample :
    readBody (some [1, 2, 3, 4, 5]) false = some [1, 2, 3, 4, 5]
      ∧ ([1, 2, 3, 4, 5] : List Nat).length = 5
      ∧ ¬ (([1, 2, 3, 4, 5] : List Nat).length ≤ 4) := by
  decide

/-- C8 amended: the handler copies the entire request body into the event —
no configured cap and no truncation exist — and never rejects the request for
its body: a read error or missing body degrades to an empty capture. -/
theorem c8_whole_body_copied (b : List Nat) (e : Bool) :
    readBody (some b) false = some b
      ∧ readBody none e = none
      ∧ readBody (some b) true = none :=
  ⟨rfl, rfl, rfl⟩

/-- C10 (confirmed): for an accepted credential the installed organization
context is built from the first organization of the account's list, whatever
the rest of the list is; with an empty list `validateAPIKey` returns a nil
context and a nil error, so the middleware forwards the request carrying no
organization context instead of rejecting it. -/
theorem c10_first_org_and_empty_list (accountID : GoStr) (org : WardenOrg)
    (rest : List WardenOrg) :
    validateAPIKey (Except.ok accountID) (Except.ok (org :: rest))
        = (some { organizationID := org.id
                  organizationSlug := org.slug
                  accountID := accountID
                  role := org.role
                  permissions := org.permissions }, none)
      ∧ validateAPIKey (Except.ok accountID) (Except.ok []) = (none, none)
      ∧ authMiddlewareDispatch (validateAPIKey (Except.ok accountID) (Except.ok []))
          = MiddlewareResult.forward none :=
  ⟨rfl, rfl, rfl⟩

/-- C5 counterexample: organization ids are arbitrary strings and the snapshot
key joins organization and campaign id with `"/"`; for tenant `A = "o"` and
tenant `B = "o/x"` (well-formed snapshot entry `"o/x/c"`), the best-match scan
for a request authenticated as `A` selects `B`'s campaign. -/
theorem c5_isolation_counterexample :
    getDestinationSelected snapSlashOrg (gs ("o")) [] paramsTie = some campSlashOrg
      ∧ campSlashOrg.organizationID ≠ gs ("o")
      ∧ WFSnapshot snapSlashOrg := by
  refine ⟨by decide, by decide, ?_⟩
  intro kc hkc
  simp only [snapSlashOrg, List.mem_singleton] at hkc
  subst hkc
  decide

/-- C6 counterexample: two active campaigns of tenant `o` with ids `a` and `b`
tie at score 5; with the snapshot iterated `b` first (a possible Go map
order), the winner is `b`, not the lexicographically smaller `a` — `score >
bestScore` never replaces an equal-scoring earlier campaign, and no id-based
tie-break exists.  The reversed traversal of the same entries elects `a`
instead, so the result is not a function of the snapshot contents alone. -/
theorem c6_tie_break_counterexample :
    findBestMatch snapTie (gs ("o")) paramsTie = some campTieB
      ∧ calculateMatchScore campTieA (flattenParams paramsTie)
          = calculateMatchScore campTieB (flattenParams paramsTie)
      ∧ 0 < calculateMatchScore campTieB (flattenParams paramsTie)
      ∧ campTieA.status = gs ("active")
      ∧ (gs ("o") ++ ['/']).isPrefixOf (gs ("o/a")) = true
      ∧ List.Lex (· < ·) campTieA.campaignID campTieB.campaignID
      ∧ campTieB ≠ campTieA
      ∧ findBestMatch snapTie.reverse (gs ("o")) paramsTie = some campTieA
      ∧ snapTie.reverse.Perm snapTie := by
  refine ⟨by decide, by decide, by decide, by decide, by decide, ?_, by decide, by decide, ?_⟩
  · exact List.Lex.rel (by decide)
  · exact List.reverse_perm snapTie

/-- C9 counterexample: destination `https://shop.example.com/s?a=1` with
`append_params` and inbound `a=2`: the merged query holds `a=1` followed by
`a=2` — the destination's own value survives and comes first, so inbound
values do not take precedence for duplicate keys. -/
theorem c9_no_precedence_counterexample :
    buildDestinationURL campMerge [(gs ("a"), [gs ("2")])]
        = { base := gs ("https://shop.example.com/s")
            query := [(gs ("a"), [gs ("1"), gs ("2")])] }
      ∧ valuesGet (buildDestinationURL campMerge [(gs ("a"), [gs ("2")])]).query (gs ("a"))
          = some [gs ("1"), gs ("2")]
      ∧ some [gs ("1"), gs ("2")] ≠ some [gs ("2")] := by
  decide

/-- C3 amended: when no active campaign of the tenant scores positively and
the tenant has no snapshot entry keyed `"default"`, the router does not signal
an error — no tenant-configured fallback URL exists in the code — but returns
the hardcoded URL `https://example.com/`, and the `/in` request is answered
302 to that URL, never 404. -/
theorem c3_fallback_amended (octx : OrganizationContext) (snap : Snapshot)
    (params : GoValues) (store : List GoStr) (redisErr : Bool) (clickID : GoStr)
    (h1 : findBestMatch snap octx.organizationID params = none)
    (h2 : getCampaign snap (octx.organizationID ++ gs ("/default")) = none) :
    GetDestination snap octx.organizationID [] params = ultimateFallback
      ∧ (handleTraffic (some octx) [] clickID params snap store redisErr).status = 302
      ∧ (handleTraffic (some octx) [] clickID params snap store redisErr).destination
          = some ultimateFallback := by
  have hsel : getDestinationSelected snap octx.organizationID [] params = none := by
    simp [getDestinationSelected, selectByRulesOrDefault, h1, h2]
  have hdest : GetDestination snap octx.organizationID [] params = ultimateFallback := by
    simp [GetDestination, hsel]
  refine ⟨hdest, rfl, ?_⟩
  simp [handleTraffic, hdest]

/-- The running best score of the `findBestMatch` loop never decreases. -/
theorem findBestAux_le_snd (orgID : GoStr) (flat : List (GoStr × GoStr)) :
    ∀ (l : Snapshot) (best : Option Campaign) (bs : Int),
      bs ≤ (findBestAux orgID flat l best bs).2 := by
  intro l
  induction l with
  | nil => intro best bs; simp [findBestAux]
  | cons kc rest ih =>
    intro best bs
    obtain ⟨key, c⟩ := kc
    simp only [findBestAux]
    split
    · exact ih best bs
    · split
      · exact ih best bs
      · split
        · exact le_trans (le_of_lt (by assumption)) (ih (some c) _)
        · exact ih best bs

/-- If the `findBestMatch` loop ends with a campaign, that campaign's score
equals the final best score, which is positive (the initial best score is 0
and only strict improvements are kept). -/
theorem findBestAux_fst_score (orgID : GoStr) (flat : List (GoStr × GoStr)) :
    ∀ (l : Snapshot) (best : Option Campaign) (bs : Int),
      (∀ b, best = some b → calculateMatchScore b flat = bs ∧ 0 < bs) → 0 ≤ bs →
      ∀ c, (findBestAux orgID flat l best bs).1 = some c →
        calculateMatchScore c flat = (findBestAux orgID flat l best bs).2
          ∧ 0 < (findBestAux orgID flat l best bs).2 := by
  intro l
  induction l with
  | nil =>
    intro best bs hinv _ c hc
    simp only [findBestAux] at hc ⊢
    exact hinv c hc
  | cons kc rest ih =>
    intro best bs hinv hnn c hc
    obtain ⟨key, c'⟩ := kc
    simp only [findBestAux] at hc ⊢
    by_cases hp : List.isPrefixOf (orgID ++ ['/']) key = false
    · rw [if_pos hp] at hc ⊢
      exact ih best bs hinv hnn c hc
    · rw [if_neg hp] at hc ⊢
      by_cases hst : c'.status ≠ gs ("active")
      · rw [if_pos hst] at hc ⊢
        exact ih best bs hinv hnn c hc
      · rw [if_neg hst] at hc ⊢
        by_cases hlt : bs < calculateMatchScore c' flat
        · rw [if_pos hlt] at hc ⊢
          refine ih (some c') _ ?_ (le_trans hnn (le_of_lt hlt)) c hc
          intro b hb
          cases hb
          exact ⟨rfl, lt_of_le_of_lt hnn hlt⟩
        · rw [if_neg hlt] at hc ⊢
          exact ih best bs hinv hnn c hc

/-- Every considered entry (organization-prefixed key, active status) scores
no more than the loop's final best score. -/
theorem findBestAux_max (orgID : GoStr) (flat : List (GoStr × GoStr)) :
    ∀ (l : Snapshot) (best : Option Campaign) (bs : Int),
      ∀ kc ∈ l, (orgID ++ ['/']).isPrefixOf kc.1 = true →
        kc.2.status = gs ("active") →
        calculateMatchScore kc.2 flat ≤ (findBestAux orgID flat l best bs).2 := by
  intro l
  induction l with
  | nil => intro best bs kc hkc; simp at hkc
  | cons hd rest ih =>
    intro best bs kc hkc hpre hact
    obtain ⟨key, c'⟩ := hd
    simp only [findBestAux]
    rcases List.mem_cons.mp hkc with heq | hmem
    · subst heq
      simp only at hpre hact
      rw [if_neg (by simp [hpre]), if_neg (by simp [hact])]
      by_cases hlt : bs < calculateMatchScore c' flat
      · rw [if_pos hlt]
        exact findBestAux_le_snd orgID flat rest (some c') _
      · rw [if_neg hlt]
        exact le_trans (le_of_not_lt hlt) (findBestAux_le_snd orgID flat rest best bs)
    · by_cases hp : List.isPrefixOf (orgID ++ ['/']) key = false
      · rw [if_pos hp]
        exact ih best bs kc hmem hpre hact
      · rw [if_neg hp]
        by_cases hst : c'.status ≠ gs ("active")
        · rw [if_pos hst]
          exact ih best bs kc hmem hpre hact
        · rw [if_neg hst]
          by_cases hlt : bs < calculateMatchScore c' flat
          · rw [if_pos hlt]
            exact ih (some c') _ kc hmem hpre hact
          · rw [if_neg hlt]
            exact ih best bs kc hmem hpre hact

/-- C6 amended: whatever campaign `findBestMatch` returns for a fixed
snapshot traversal order has a positive match score that is maximal among the
tenant's active snapshot entries.  Ties are broken by the traversal order of
the snapshot map — the first maximal-scoring campaign encountered wins, and Go
map iteration order is unspecified — not by the lexicographically smaller
campaign id. -/
theorem c6_best_match_amended (snap : Snapshot) (orgID : GoStr) (params : GoValues)
    (c : Campaign) (h : findBestMatch snap orgID params = some c) :
    0 < calculateMatchScore c (flattenParams params)
      ∧ ∀ kc ∈ snap, (orgID ++ ['/']).isPrefixOf kc.1 = true →
          kc.2.status = gs ("active") →
          calculateMatchScore kc.2 (flattenParams params)
            ≤ calculateMatchScore c (flattenParams params) := by
  have hs := findBestAux_fst_score orgID (flattenParams params) snap none 0
    (by intro b hb; cases hb) le_rfl c h
  refine ⟨hs.1 ▸ hs.2, ?_⟩
  intro kc hkc hpre hact
  have := findBestAux_max orgID (flattenParams params) snap none 0 kc hkc hpre hact
  exact hs.1 ▸ this

/-- A successful snapshot lookup yields an entry of the snapshot. -/
theorem getCampaign_mem :
    ∀ (snap : Snapshot) (key : GoStr) (c : Campaign),
      getCampaign snap key = some c → (key, c) ∈ snap := by
  intro snap
  induction snap with
  | nil => intro key c h; simp [getCampaign] at h
  | cons kc rest ih =>
    intro key c h
    obtain ⟨k, c'⟩ := kc
    simp only [getCampaign] at h
    by_cases hk : k = key
    · rw [if_pos hk] at h
      cases h
      subst hk
      exact List.mem_cons_self _ _
    · rw [if_neg hk] at h
      exact List.mem_cons_of_mem _ (ih key c h)

/-- Joining with a slash is injective on the left component when neither left
component contains a slash. -/
theorem joinSlash_org_eq :
    ∀ (a b x y : GoStr), '/' ∉ a → '/' ∉ b →
      a ++ '/' :: x = b ++ '/' :: y → a = b := by
  intro a
  induction a with
  | nil =>
    intro b x y _ hb h
    cases b with
    | nil => rfl
    | cons hbc bt =>
      simp only [List.nil_append, List.cons_append, List.cons.injEq] at h
      exact absurd (h.1 ▸ List.mem_cons_self hbc bt) (h.1 ▸ hb)
  | cons hac at' ih =>
    intro b x y ha hb h
    cases b with
    | nil =>
      simp only [List.cons_append, List.nil_append, List.cons.injEq] at h
      exact absurd (h.1 ▸ List.mem_cons_self hac at') (fun hm => ha (h.1 ▸ hm))
    | cons hbc bt =>
      simp only [List.cons_append, List.cons.injEq] at h
      have := ih bt x y (fun hm => ha (List.mem_cons_of_mem _ hm))
        (fun hm => hb (List.mem_cons_of_mem _ hm)) h.2
      rw [h.1, this]

/-- If `a ++ "/"` is a prefix of `b ++ "/" ++ y` and neither `a` nor `b`
contains a slash, then `a = b`. -/
theorem prefixSlash_org_eq :
    ∀ (a b y : GoStr), '/' ∉ a → '/' ∉ b →
      (a ++ ['/']) <+: (b ++ '/' :: y) → a = b := by
  intro a
  induction a with
  | nil =>
    intro b y _ hb h
    cases b with
    | nil => rfl
    | cons hbc bt =>
      simp only [List.nil_append, List.cons_append, List.cons_prefix_cons] at h
      exact absurd (h.1 ▸ List.mem_cons_self hbc bt) (h.1 ▸ hb)
  | cons hac at' ih =>
    intro b y ha hb h
    cases b with
    | nil =>
      simp only [List.cons_append, List.nil_append, List.cons_prefix_cons] at h
      exact absurd (h.1 ▸ List.mem_cons_self hac at') (fun hm => ha (h.1 ▸ hm))
    | cons hbc bt =>
      simp only [List.cons_append, List.cons_prefix_cons] at h
      have := ih bt y (fun hm => ha (List.mem_cons_of_mem _ hm))
        (fun hm => hb (List.mem_cons_of_mem _ hm)) h.2
      rw [h.1, this]

/-- A campaign produced by the `findBestMatch` loop is the incoming best or
comes from a snapshot entry whose key passed the organization-prefix check. -/
theorem findBestAux_mem (orgID : GoStr) (flat : List (GoStr × GoStr)) :
    ∀ (l : Snapshot) (best : Option Campaign) (bs : Int) (c : Campaign),
      (findBestAux orgID flat l best bs).1 = some c →
      best = some c ∨ ∃ k, (k, c) ∈ l ∧ (orgID ++ ['/']).isPrefixOf k = true := by
  intro l
  induction l with
  | nil =>
    intro best bs c h
    exact Or.inl h
  | cons kc rest ih =>
    intro best bs c h
    obtain ⟨key, c'⟩ := kc
    simp only [findBestAux] at h
    by_cases hp : List.isPrefixOf (orgID ++ ['/']) key = false
    · rw [if_pos hp] at h
      rcases ih best bs c h with hl | ⟨k, hk, hkp⟩
      · exact Or.inl hl
      · exact Or.inr ⟨k, List.mem_cons_of_mem _ hk, hkp⟩
    · rw [if_neg hp] at h
      have hp' : List.isPrefixOf (orgID ++ ['/']) key = true := by
        cases hq : List.isPrefixOf (orgID ++ ['/']) key
        · exact absurd hq hp
        · rfl
      by_cases hst : c'.status ≠ gs ("active")
      · rw [if_pos hst] at h
        rcases ih best bs c h with hl | ⟨k, hk, hkp⟩
        · exact Or.inl hl
        · exact Or.inr ⟨k, List.mem_cons_of_mem _ hk, hkp⟩
      · rw [if_neg hst] at h
        by_cases hlt : bs < calculateMatchScore c' flat
        · rw [if_pos hlt] at h
          rcases ih (some c') _ c h with hl | ⟨k, hk, hkp⟩
          · cases hl
            exact Or.inr ⟨key, List.mem_cons_self _ _, hp'⟩
          · exact Or.inr ⟨k, List.mem_cons_of_mem _ hk, hkp⟩
        · rw [if_neg hlt] at h
          rcases ih best bs c h with hl | ⟨k, hk, hkp⟩
          · exact Or.inl hl
          · exact Or.inr ⟨k, List.mem_cons_of_mem _ hk, hkp⟩

/-- C5 amended: provided every organization id in play contains no `'/'`
character (snapshot keys join organization and campaign ids with `'/'`, so a
slash inside an organization id defeats the scoping, as the counterexample
shows), every campaign the routing decision selects — explicit lookup,
best-match scan, or default fallback — belongs to the authenticated tenant. -/
theorem c5_isolation_amended (snap : Snapshot) (a cid : GoStr) (params : GoValues)
    (c : Campaign) (hwf : WFSnapshot snap)
    (hns : ∀ kc ∈ snap, '/' ∉ kc.2.organizationID) (ha : '/' ∉ a)
    (hsel : getDestinationSelected snap a cid params = some c) :
    c.organizationID = a := by
  have hbest : ∀ c0 : Campaign, findBestMatch snap a params = some c0 →
      c0.organizationID = a := by
    intro c0 h0
    rcases findBestAux_mem a (flattenParams params) snap none 0 c0 h0 with hl | ⟨k, hk, hkp⟩
    · cases hl
    · have hkey := (hwf (k, c0) hk)
      simp only at hkey
      have hpre : (a ++ ['/']) <+: k := List.isPrefixOf_iff_prefix.mp hkp
      rw [hkey] at hpre
      exact (prefixSlash_org_eq a c0.organizationID _ ha (hns (k, c0) hk) hpre).symm
  have hdefault : ∀ c0 : Campaign,
      getCampaign snap (a ++ gs ("/default")) = some c0 → c0.organizationID = a := by
    intro c0 h0
    have hk := getCampaign_mem snap _ c0 h0
    have hkey := hwf _ hk
    simp only at hkey
    have : a ++ '/' :: gs ("default") = c0.organizationID ++ '/' :: c0.campaignID := hkey
    exact (joinSlash_org_eq a c0.organizationID _ _ ha (hns _ hk) this).symm
  have hsor : ∀ c0 : Campaign, selectByRulesOrDefault snap a params = some c0 →
      c0.organizationID = a := by
    intro c0 h0
    unfold selectByRulesOrDefault at h0
    cases hfb : findBestMatch snap a params with
    | some cb => rw [hfb] at h0; exact hbest c0 (hfb.trans h0)
    | none => rw [hfb] at h0; exact hdefault c0 h0
  unfold getDestinationSelected at hsel
  cases hex : (if cid ≠ [] then getCampaign snap (a ++ '/' :: cid) else none) with
  | some c0 =>
    rw [hex] at hsel
    dsimp only at hsel
    by_cases hact : c0.status = gs ("active")
    · rw [if_pos hact] at hsel
      cases hsel
      have hcid : cid ≠ [] := by
        intro hcid
        rw [hcid] at hex
        simp at hex
      rw [if_pos hcid] at hex
      have hk := getCampaign_mem snap _ _ hex
      have hkey := hwf _ hk
      simp only at hkey
      exact (joinSlash_org_eq a c.organizationID _ _ ha (hns _ hk) hkey).symm
    · rw [if_neg hact] at hsel
      exact hsor c hsel
  | none =>
    rw [hex] at hsel
    dsimp only at hsel
    exact hsor c hsel

/-- Lookup of an absent key yields `none`. -/
theorem valuesGet_eq_none :
    ∀ (v : GoValues) (k : GoStr), k ∉ v.map Prod.fst → valuesGet v k = none := by
  intro v
  induction v with
  | nil => intro k _; rfl
  | cons kv t ih =>
    intro k hk
    obtain ⟨k0, vs⟩ := kv
    simp only [List.map_cons, List.mem_cons] at hk
    push_neg at hk
    simp only [valuesGet]
    rw [if_neg (fun h => hk.1 h.symm)]
    exact ih k hk.2

/-- Effect of `url.Values.Add` on lookups: the added value lands at the end
of its key's slice; other keys are untouched. -/
theorem valuesAdd_get (v : GoValues) (k : GoStr) (val : GoStr) (k' : GoStr) :
    (valuesGet (valuesAdd v k val) k').getD []
      = (valuesGet v k').getD [] ++ (if k' = k then [val] else []) := by
  induction v with
  | nil =>
    simp only [valuesAdd, valuesGet]
    by_cases h : k = k'
    · rw [if_pos h, if_pos h.symm]
      simp
    · rw [if_neg h, if_neg (fun hh => h hh.symm)]
      simp
  | cons kv t ih =>
    obtain ⟨k0, vs⟩ := kv
    simp only [valuesAdd]
    by_cases h0 : k0 = k
    · rw [if_pos h0]
      simp only [valuesGet]
      by_cases hq : k0 = k'
      · rw [if_pos hq, if_pos hq]
        rw [if_pos (hq.symm.trans h0)]
        simp
      · rw [if_neg hq, if_neg hq]
        rw [if_neg (fun hh => hq ((h0.trans hh.symm)))]
        simp
    · rw [if_neg h0]
      simp only [valuesGet]
      by_cases hq : k0 = k'
      · rw [if_pos hq, if_pos hq]
        rw [if_neg (fun hh => h0 (hq.trans hh))]
        simp
      · rw [if_neg hq, if_neg hq]
        exact ih

/-- Folding `Add` over a value slice appends the slice at its key. -/
theorem addVals_get (k : GoStr) (vs : List GoStr) :
    ∀ (q : GoValues) (k' : GoStr),
      (valuesGet (vs.foldl (fun a v => valuesAdd a k v) q) k').getD []
        = (valuesGet q k').getD [] ++ (if k' = k then vs else []) := by
  induction vs with
  | nil => intro q k'; simp
  | cons v t ih =>
    intro q k'
    simp only [List.foldl_cons]
    rw [ih (valuesAdd q k v) k', valuesAdd_get]
    by_cases hq : k' = k
    · rw [if_pos hq, if_pos hq, if_pos hq]
      simp
    · rw [if_neg hq, if_neg hq, if_neg hq]
      simp

/-- Per-key content of the merged query: the destination's values followed by
the inbound values (inbound keys assumed unique, as in a Go map). -/
theorem addAllParams_get :
    ∀ (ps : GoValues) (q : GoValues) (k : GoStr), (ps.map Prod.fst).Nodup →
      (valuesGet (addAllParams q ps) k).getD []
        = (valuesGet q k).getD [] ++ (valuesGet ps k).getD [] := by
  intro ps
  induction ps with
  | nil => intro q k _; simp [addAllParams, valuesGet]
  | cons kv t ih =>
    intro q k hnd
    obtain ⟨k1, vs⟩ := kv
    simp only [List.map_cons, List.nodup_cons] at hnd
    have step : addAllParams q ((k1, vs) :: t)
        = addAllParams (vs.foldl (fun a v => valuesAdd a k1 v) q) t := by
      simp [addAllParams]
    rw [step, ih _ k hnd.2, addVals_get]
    simp only [valuesGet]
    by_cases hq : k1 = k
    · rw [if_pos hq, if_pos hq.symm]
      rw [valuesGet_eq_none t k (hq ▸ hnd.1)]
      simp
    · rw [if_neg hq, if_neg (fun hh => hq hh.symm)]
      simp

/-- C9 amended: with `append_params` set and a parseable destination, the
inbound query values are appended after the destination's existing values for
each key — every inbound value is merged in, but for duplicate keys the
destination's own values are retained and precede the inbound ones, so
inbound values do not take precedence. -/
theorem c9_params_appended (c : Campaign) (ps : GoValues)
    (h1 : c.appendParams = true) (h2 : ps ≠ []) (h3 : c.destinationURL.parseOk = true)
    (h4 : (ps.map Prod.fst).Nodup) :
    (buildDestinationURL c ps).base = c.destinationURL.base
      ∧ ∀ k, (valuesGet (buildDestinationURL c ps).query k).getD []
          = (valuesGet c.destinationURL.query k).getD [] ++ (valuesGet ps k).getD [] := by
  have hb : buildDestinationURL c ps
      = { c.destinationURL with query := addAllParams c.destinationURL.query ps } := by
    simp [buildDestinationURL, h1, h2, h3]
  rw [hb]
  exact ⟨rfl, fun k => addAllParams_get ps c.destinationURL.query k h4⟩

/-- Witness for C3 amended at the empty snapshot. -/
theorem c3_fallback_amended_witness :
    GetDestination [] orgACtx.organizationID [] [] = ultimateFallback
      ∧ (handleTraffic (some orgACtx) [] (gs ("x")) [] [] [] false).status = 302
      ∧ (handleTraffic (some orgACtx) [] (gs ("x")) [] [] [] false).destination
          = some ultimateFallback :=
  c3_fallback_amended orgACtx [] [] [] false (gs ("x")) rfl rfl

/-- Witness for C5 amended at the two-campaign tie snapshot. -/
theorem c5_isolation_amended_witness : campTieB.organizationID = gs ("o") :=
  c5_isolation_amended snapTie (gs ("o")) [] paramsTie campTieB
    (by unfold WFSnapshot; decide) (by decide) (by decide) (by decide)

/-- Witness for C6 amended at the tie snapshot. -/
theorem c6_best_match_amended_witness :
    0 < calculateMatchScore campTieB (flattenParams paramsTie)
      ∧ calculateMatchScore campTieA (flattenParams paramsTie)
          ≤ calculateMatchScore campTieB (flattenParams paramsTie) :=
  ⟨(c6_best_match_amended snapTie (gs ("o")) paramsTie campTieB (by decide)).1,
   (c6_best_match_amended snapTie (gs ("o")) paramsTie campTieB (by decide)).2
     (gs ("o/a"), campTieA) (by decide) (by decide) (by decide)⟩

/-- Witness for C9 amended at the `a=1` / `a=2` merge fixture. -/
theorem c9_params_appended_witness :
    (buildDestinationURL campMerge [(gs ("a"), [gs ("2")])]).base
        = campMerge.destinationURL.base
      ∧ (valuesGet (buildDestinationURL campMerge [(gs ("a"), [gs ("2")])]).query (gs ("a"))).getD []
          = (valuesGet campMerge.destinationURL.query (gs ("a"))).getD []
            ++ (valuesGet [(gs ("a"), [gs ("2")])] (gs ("a"))).getD [] :=
  ⟨(c9_params_appended campMerge [(gs ("a"), [gs ("2")])] rfl (by decide) rfl (by decide)).1,
   (c9_params_appended campMerge [(gs ("a"), [gs ("2")])] rfl (by decide) rfl (by decide)).2
     (gs ("a"))⟩
